import Mathlib

/-!
Verification of the TicTacToeRandomizer core (src/TicTacToeRandomizer/main.cpp)
against its natural-language specification.

The C++ program is embedded shallowly: each mutable struct becomes a Lean
structure, each function that mutates state becomes a pure function returning
the new state, and the per-thread condition-variable protocol is represented by
explicit action lists and an inductive trace relation. Machine `int` fields
never approach overflow in the modelled behaviours (counters bounded by the
number of games), so they are embedded as `Int`.
-/

namespace TicTacToeRandomizer

/-- `enum class GameState` from main.cpp. -/
inductive GameState
  | StillPlaying
  | Won
  | Draw
deriving DecidableEq, Repr

/-- `enum class PlayerType` from main.cpp. `None` is the zero value that
`memset(gameBoard, 0, ...)` produces for every cell. -/
inductive PlayerType
  | None
  | X
  | O
deriving DecidableEq, Repr

/-- `struct Game` from main.cpp, restricted to its data fields. The mutexes,
condition variable and the `gameUniqueLock` pointer are synchronisation
plumbing; blocking and waking are modelled separately (see `TurnAction`). The
3x3 `PlayerType gameBoard[3][3]` is a function on `Fin 3 × Fin 3`. -/
structure Game where
  playerCount : Int
  gameNumber : Int
  currentTurn : PlayerType
  currentGameState : GameState
  playerX : Int
  playerO : Int
  gameBoard : Fin 3 → Fin 3 → PlayerType

/-- `struct Player` from main.cpp, data fields only (the pool pointers and the
per-thread random generator are passed explicitly where needed). -/
structure Player where
  id : Int
  gamesPlayed : Int
  winCount : Int
  loseCount : Int
  drawCount : Int
  type : PlayerType
deriving DecidableEq, Repr

/-- The data fields of `struct PlayerPool`: the running-thread counter and the
starting-gun flag (`gunFlag`). Its mutexes and condition variables are
synchronisation plumbing. -/
structure PlayerPoolState where
  totalPlayerCount : Int
  gunFlag : Bool
deriving DecidableEq, Repr

/-- Per-game initialisation, main.cpp lines 515-524 (`memset` clears the board
to `PlayerType::None`). -/
def initGame (i : Int) : Game :=
  { playerCount := 0
    gameNumber := i + 1
    currentTurn := PlayerType.X
    currentGameState := GameState.StillPlaying
    playerX := -1
    playerO := -1
    gameBoard := fun _ _ => PlayerType.None }

/-- Per-player initialisation, main.cpp lines 527-537. -/
def initPlayer (i : Int) : Player :=
  { id := i
    gamesPlayed := 0
    winCount := 0
    loseCount := 0
    drawCount := 0
    type := PlayerType.None }

/-- Player-pool initialisation, main.cpp lines 511-512. -/
def initPlayerPool : PlayerPoolState :=
  { totalPlayerCount := 0, gunFlag := false }

/-- `DidWeWin(row, col, game, player)`, main.cpp lines 168-190: four flags,
each ANDed over `i = 0,1,2`; the move wins iff any flag survives. The
anti-diagonal flag inspects `gameBoard[2 - i][i]` exactly as the source does,
for every call, whether or not `(row, col)` lies on a diagonal. -/
def DidWeWin (row col : Fin 3) (game : Game) (player : Player) : Bool :=
  let completeRow := (List.finRange 3).all fun i =>
    decide (game.gameBoard row i = player.type)
  let completeCol := (List.finRange 3).all fun i =>
    decide (game.gameBoard i col = player.type)
  let completeDiagonalA := (List.finRange 3).all fun i =>
    decide (game.gameBoard i i = player.type)
  let completeDiagonalB := (List.finRange 3).all fun i =>
    decide (game.gameBoard ⟨2 - i.val, by omega⟩ i = player.type)
  completeRow || completeCol || completeDiagonalA || completeDiagonalB

/-- The row index `move / 3` that `MakeAMove` computes from a flat cell index. -/
def cellRow (m : Fin 9) : Fin 3 :=
  ⟨m.val / 3, by have := m.isLt; omega⟩

/-- The column index `move % 3` that `MakeAMove` computes from a flat cell index. -/
def cellCol (m : Fin 9) : Fin 3 :=
  ⟨m.val % 3, by omega⟩

/-- The `possibleMoves` scan of `MakeAMove`, main.cpp lines 199-208: the flat
indices `row * 3 + col` of all `None` cells, gathered row-major. -/
def openCells (board : Fin 3 → Fin 3 → PlayerType) : List (Fin 9) :=
  (List.finRange 3).flatMap fun row =>
    (List.finRange 3).filterMap fun col =>
      if board row col = PlayerType.None then
        some ⟨row.val * 3 + col.val, by have := row.isLt; have := col.isLt; omega⟩
      else
        none

/-- The single-cell board write `gameBoard[row][col] = currentPlayer->type`,
main.cpp line 217. -/
def placeMark (board : Fin 3 → Fin 3 → PlayerType) (row col : Fin 3)
    (t : PlayerType) : Fin 3 → Fin 3 → PlayerType :=
  fun r c => if r = row ∧ c = col then t else board r c

/-- `MakeAMove(currentPlayer, currentGame)`, main.cpp lines 193-239. The call
`currentPlayer->myRand()` is passed in as `rand`. Returns the `GameState`
result together with the updated player (counter increments) and game (board
write). If any cell is open, a random open cell is picked, the mover's mark is
placed there, and `DidWeWin` is consulted on the updated board; otherwise the
move is a draw and `drawCount` is incremented. -/
def MakeAMove (rand : Nat) (currentPlayer : Player) (currentGame : Game) :
    GameState × Player × Game :=
  let possibleMoves := openCells currentGame.gameBoard
  if h : possibleMoves.length ≠ 0 then
    let randomMoveIndex := rand % possibleMoves.length
    let move := possibleMoves.get ⟨randomMoveIndex, Nat.mod_lt _ (Nat.pos_of_ne_zero h)⟩
    let row := cellRow move
    let col := cellCol move
    let newGame :=
      { currentGame with gameBoard := placeMark currentGame.gameBoard row col currentPlayer.type }
    if DidWeWin row col newGame currentPlayer then
      (GameState.Won, { currentPlayer with winCount := currentPlayer.winCount + 1 }, newGame)
    else
      (GameState.StillPlaying, currentPlayer, newGame)
  else
    (GameState.Draw, { currentPlayer with drawCount := currentPlayer.drawCount + 1 }, currentGame)

/-- The ternary `(type == X) ? O : X` of main.cpp line 262. -/
def otherRole (t : PlayerType) : PlayerType :=
  if t = PlayerType.X then PlayerType.O else PlayerType.X

/-- One iteration of the `while` loop of `PlayGame`, main.cpp lines 253-291,
up to the `switch`: `none` models the fatal `exit(1)` on the wrong-turn check;
otherwise `currentTurn` is flipped FIRST (line 262), then `MakeAMove` runs on
the already-flipped game and its result is stored in `currentGameState`. -/
def playTurnStep (rand : Nat) (currentPlayer : Player) (currentGame : Game) :
    Option (GameState × Player × Game) :=
  if currentGame.currentTurn ≠ currentPlayer.type then
    none
  else
    let g1 := { currentGame with currentTurn := otherRole currentPlayer.type }
    let r := MakeAMove rand currentPlayer g1
    some (r.1, r.2.1, { r.2.2 with currentGameState := r.1 })

/-- The condition-variable actions a mover performs, in order, in the `switch`
of `PlayGame` (main.cpp lines 268-290): every branch calls
`gameCondition.notify_all()`; only the `StillPlaying` branch then waits, the
terminal branches return. -/
inductive TurnAction
  | notifyAll
  | waitTurn
  | returnFromGame
deriving DecidableEq, Repr

/-- The ordered action list of each `switch` branch of `PlayGame`. -/
def turnActions : GameState → List TurnAction
  | GameState.StillPlaying => [TurnAction.notifyAll, TurnAction.waitTurn]
  | GameState.Won => [TurnAction.notifyAll, TurnAction.returnFromGame]
  | GameState.Draw => [TurnAction.notifyAll, TurnAction.returnFromGame]

/-- The guard at the top of `PlayGame`, main.cpp lines 246-251: the game may
proceed only when both seats are filled (otherwise fatal `exit(1)`). -/
def canPlay (g : Game) : Bool :=
  !(decide (g.playerO = -1) || decide (g.playerX = -1))

/-- The non-mover epilogue of `PlayGame`, main.cpp lines 293-304: run by the
player that exits the `while` loop after being woken to a terminal state; a
`Won` state means this player lost, a `Draw` is counted as its draw. -/
def playGameFinish (currentPlayer : Player) (currentGame : Game) : Player :=
  if currentGame.currentGameState = GameState.Won then
    { currentPlayer with loseCount := currentPlayer.loseCount + 1 }
  else if currentGame.currentGameState = GameState.Draw then
    { currentPlayer with drawCount := currentPlayer.drawCount + 1 }
  else
    currentPlayer

/-- The role-assignment half of `JoinGame`, main.cpp lines 315-333: the result
Bool is `true` when this joiner takes seat O and must wait on
`gameCondition` until `playerX != -1`; a joiner that finds seat O taken takes
seat X and does not wait. -/
def JoinGameAssign (currentPlayer : Player) (currentGame : Game) :
    Player × Game × Bool :=
  if currentGame.playerO = -1 then
    ({ currentPlayer with type := PlayerType.O },
     { currentGame with playerO := currentPlayer.id },
     true)
  else
    ({ currentPlayer with type := PlayerType.X },
     { currentGame with playerX := currentPlayer.id },
     false)

/-- The O-seat joiner's wake predicate, the lambda of main.cpp lines 323-324. -/
def joinWaitPredicate (g : Game) : Bool :=
  decide (g.playerX ≠ -1)

/-- The slot-claim step of `TryToPlayEachGame`, main.cpp lines 355-365: under
`playerCountMutex`, skip a full game (`playerCount == 2`), else increment the
count and report success. -/
def tryClaimSlot (playerCount : Int) : Int × Bool :=
  if playerCount = 2 then
    (playerCount, false)
  else
    (playerCount + 1, true)

/-- A sequence of `n` claim attempts on one slot, starting from the
initialised `playerCount = 0`; `playerCountMutex` serialises concurrent
attempts, so any interleaving of workers is some such sequence. Returns the
final occupancy and the number of successful claims. -/
def runClaims : Nat → Int × Nat
  | 0 => (0, 0)
  | n + 1 =>
    let prev := runClaims n
    let step := tryClaimSlot prev.1
    (step.1, if step.2 then prev.2 + 1 else prev.2)

/-- `TryToPlayEachGame(currentPlayer)`, main.cpp lines 342-370: scan the pool
in increasing index order; under `playerCountMutex` skip a full slot
(`playerCount == 2`) or claim it by incrementing `playerCount`, then play the
claimed slot via `JoinGame` before advancing. The `JoinGame` call (whose
blocking behaviour involves the other thread) is abstracted as the `joinGame`
parameter mapping the player and the claimed slot to their post-game states. -/
def TryToPlayEachGame (joinGame : Player → Game → Player × Game) :
    Player → List Game → Player × List Game
  | p, [] => (p, [])
  | p, g :: rest =>
    if g.playerCount = 2 then
      let r := TryToPlayEachGame joinGame p rest
      (r.1, g :: r.2)
    else
      let claimed := { g with playerCount := g.playerCount + 1 }
      let joined := joinGame p claimed
      let r := TryToPlayEachGame joinGame joined.1 rest
      (r.1, joined.2 :: r.2)

/-- The input-validation checks of `main`, main.cpp lines 467-496, in source
order (the second pair of checks is a verbatim duplicate in the source):
returns `true` exactly when a round is started. -/
def validateConfig (totalPlayerCount totalGameCount : Int) : Bool :=
  if totalPlayerCount < 2 then false
  else if totalGameCount < 0 ∨ totalPlayerCount < 0 then false
  else if totalGameCount < 0 ∨ totalPlayerCount < 0 then false
  else if totalPlayerCount < 2 then false
  else true

/-- The starting-gun release of `main`, lines 552-554: sets `gunFlag` under
`startingGunMutex` (the subsequent broadcasts carry no state). -/
def fireStartingGun (pool : PlayerPoolState) : PlayerPoolState :=
  { pool with gunFlag := true }

/-- The per-game reset of the replay loop, main.cpp lines 576-583 (`memset`
clears the board). -/
def resetGame (g : Game) : Game :=
  { g with playerO := -1
           playerX := -1
           currentTurn := PlayerType.X
           currentGameState := GameState.StillPlaying
           playerCount := 0
           gameBoard := fun _ _ => PlayerType.None }

/-- The per-player reset of the replay loop, main.cpp lines 585-591. -/
def resetPlayer (p : Player) : Player :=
  { p with gamesPlayed := 0
           winCount := 0
           loseCount := 0
           drawCount := 0
           type := PlayerType.None }

/-- Everything the replay loop of `main` (lines 572-592) writes to program
state between two rounds: per-game and per-player reinitialisation. No field
of the `PlayerPool` is written there; in particular `gunFlag` is not cleared
and `totalPlayerCount` is only restored to 0 by the workers' own decrements
(lines 394-396) before the round ends. -/
def roundReset (pool : PlayerPoolState) (games : List Game)
    (players : List Player) : PlayerPoolState × List Game × List Player :=
  (pool, games.map resetGame, players.map resetPlayer)

/-- A board whose row 0 is `[X, X, X]` and whose other cells are empty, for
the concrete win-detection scenario of the specification. -/
def rowZeroBoard : Fin 3 → Fin 3 → PlayerType :=
  fun r _ => if r = 0 then PlayerType.X else PlayerType.None

/-- A full board with no three-in-a-row (X O X / X O O / O X X). -/
def drawnBoard : Fin 3 → Fin 3 → PlayerType :=
  fun r c =>
    match r.val, c.val with
    | 0, 0 => PlayerType.X
    | 0, 1 => PlayerType.O
    | 0, 2 => PlayerType.X
    | 1, 0 => PlayerType.X
    | 1, 1 => PlayerType.O
    | 1, 2 => PlayerType.O
    | 2, 0 => PlayerType.O
    | 2, 1 => PlayerType.X
    | _, _ => PlayerType.X

/-- A board with a single open cell at (0, 2) where placing X completes
row 0 (X X _ / O O X / X O O). -/
def nearWinBoard : Fin 3 → Fin 3 → PlayerType :=
  fun r c =>
    match r.val, c.val with
    | 0, 0 => PlayerType.X
    | 0, 1 => PlayerType.X
    | 0, 2 => PlayerType.None
    | 1, 0 => PlayerType.O
    | 1, 1 => PlayerType.O
    | 1, 2 => PlayerType.X
    | 2, 0 => PlayerType.X
    | 2, 1 => PlayerType.O
    | _, _ => PlayerType.O

/-- A sample player seated as X, for concrete instantiations. -/
def samplePlayerX : Player :=
  { initPlayer 0 with type := PlayerType.X }

/-- A sample player seated as O, for concrete instantiations. -/
def samplePlayerO : Player :=
  { initPlayer 1 with type := PlayerType.O }

/-- Trace relation on one slot: `Plays g roles gfinal` records an execution of
`PlayGame` loop iterations by the seated players, in the order the slot's
mutex serialises them. Each step is taken while the slot is still in progress,
by a player whose `playTurnStep` does not hit the fatal wrong-turn check, and
`roles` lists the movers' marks in order. -/
inductive Plays : Game → List PlayerType → Game → Prop
  | nil (g : Game) : Plays g [] g
  | cons (rand : Nat) (p : Player) (g gfinal : Game)
      (roles : List PlayerType) (out : GameState × Player × Game) :
      g.currentGameState = GameState.StillPlaying →
      playTurnStep rand p g = some out →
      Plays out.2.2 roles gfinal →
      Plays g (p.type :: roles) gfinal

end TicTacToeRandomizer

namespace TicTacToeRandomizer

/-- Helper: an element is in `openCells board` exactly when the cell it
denotes (row `m / 3`, column `m % 3`) is empty on `board`. -/
theorem mem_openCells (board : Fin 3 → Fin 3 → PlayerType) (m : Fin 9) :
    m ∈ openCells board ↔ board (cellRow m) (cellCol m) = PlayerType.None := by
  simp only [openCells, List.mem_flatMap, List.mem_filterMap, List.mem_finRange,
    true_and]
  constructor
  · rintro ⟨row, col, h⟩
    split at h
    · rename_i hcell
      obtain rfl : (⟨row.val * 3 + col.val, _⟩ : Fin 9) = m := Option.some.inj h
      have hr := row.isLt
      have hc := col.isLt
      have hrow : cellRow ⟨row.val * 3 + col.val, by omega⟩ = row := by
        apply Fin.ext
        simp [cellRow]
        omega
      have hcol : cellCol ⟨row.val * 3 + col.val, by omega⟩ = col := by
        apply Fin.ext
        simp [cellCol]
        omega
      rw [hrow, hcol]
      exact hcell
    · exact absurd h (by simp)
  · intro h
    refine ⟨cellRow m, cellCol m, ?_⟩
    rw [if_pos h]
    congr 1
    apply Fin.ext
    have := m.isLt
    simp [cellRow, cellCol]
    omega

/-- Helper: `openCells` is empty exactly when no board cell is empty. -/
theorem openCells_eq_nil_iff (board : Fin 3 → Fin 3 → PlayerType) :
    openCells board = [] ↔ ∀ r c : Fin 3, board r c ≠ PlayerType.None := by
  rw [List.eq_nil_iff_forall_not_mem]
  constructor
  · intro h r c hcell
    have hr := r.isLt
    have hc := c.isLt
    refine h ⟨r.val * 3 + c.val, by omega⟩ ?_
    rw [mem_openCells]
    have hrow : cellRow ⟨r.val * 3 + c.val, by omega⟩ = r := by
      apply Fin.ext; simp [cellRow]; omega
    have hcol : cellCol ⟨r.val * 3 + c.val, by omega⟩ = c := by
      apply Fin.ext; simp [cellCol]; omega
    rw [hrow, hcol]
    exact hcell
  · intro h m hm
    exact h _ _ ((mem_openCells board m).mp hm)

/-- C3: `DidWeWin` returns true iff the examined row, the examined column, the
main diagonal, or the anti-diagonal is entirely the mover's mark; both
diagonal scans run on every call independently of `(row, col)`; and on a board
whose row 0 is `[X, X, X]`, the check at cell `(0, 2)` for `X` succeeds. -/
theorem C3_didWeWin_characterisation :
    (∀ (row col : Fin 3) (game : Game) (player : Player),
      DidWeWin row col game player = true ↔
        ((∀ i : Fin 3, game.gameBoard row i = player.type) ∨
         (∀ i : Fin 3, game.gameBoard i col = player.type) ∨
         (∀ i : Fin 3, game.gameBoard i i = player.type) ∨
         (∀ i : Fin 3, game.gameBoard ⟨2 - i.val, by omega⟩ i = player.type))) ∧
    DidWeWin 0 2 { initGame 0 with gameBoard := rowZeroBoard }
      { initPlayer 0 with type := PlayerType.X } = true := by
  constructor
  · intro row col game player
    simp [DidWeWin, List.all_eq_true, List.mem_finRange]
    tauto
  · decide

/-- Helper invariant for claim sequences: occupancy stays in `[0, 2]` and the
success count never exceeds the occupancy. -/
theorem runClaims_invariant (n : Nat) :
    0 ≤ (runClaims n).1 ∧ (runClaims n).1 ≤ 2 ∧
      ((runClaims n).2 : Int) ≤ (runClaims n).1 := by
  induction n with
  | zero => simp [runClaims]
  | succ n ih =>
    obtain ⟨h0, h2, hs⟩ := ih
    simp only [runClaims]
    by_cases h : (runClaims n).1 = 2
    · simp [tryClaimSlot, h]
      omega
    · simp only [tryClaimSlot, if_neg h, if_pos rfl]
      constructor
      · omega
      constructor
      · omega
      · push_cast
        omega

/-- C2: claiming a slot succeeds exactly when occupancy is below 2 and
increments occupancy exactly on success (for every occupancy reachable from
0), and under any serialised sequence of claim attempts on a slot starting at
occupancy 0, occupancy never exceeds 2 and at most 2 attempts succeed. -/
theorem C2_claim_exclusive :
    (∀ c : Int, 0 ≤ c → c ≤ 2 →
      (((tryClaimSlot c).2 = true) ↔ c < 2) ∧
      ((tryClaimSlot c).2 = true → (tryClaimSlot c).1 = c + 1) ∧
      ((tryClaimSlot c).2 = false → (tryClaimSlot c).1 = c)) ∧
    (∀ n : Nat, (runClaims n).1 ≤ 2 ∧ (runClaims n).2 ≤ 2) := by
  constructor
  · intro c h0 h2
    by_cases h : c = 2
    · subst h
      simp [tryClaimSlot]
    · simp [tryClaimSlot, h]
      omega
  · intro n
    obtain ⟨h0, h2, hs⟩ := runClaims_invariant n
    exact ⟨h2, by omega⟩

/-- Witness for C2 at occupancy 1 and a 5-attempt sequence. -/
theorem C2_claim_exclusive_witness :
    ((tryClaimSlot 1).2 = true ↔ (1 : Int) < 2) ∧ (runClaims 5).2 ≤ 2 :=
  ⟨(C2_claim_exclusive.1 1 (by decide) (by decide)).1,
   (C2_claim_exclusive.2 5).2⟩

/-- C8: the inter-round reset of `main` leaves the player pool untouched: in
particular, after the starting gun fired in round 1, `gunFlag` is still `true`
when the next round's workers start (the spec instead requires the go flag to
return to `false`); the counter and the per-game/per-player parts of the claim
do hold. -/
theorem C8_gunFlag_survives_reset :
    (∀ pool games players, (roundReset pool games players).1 = pool) ∧
    (roundReset (fireStartingGun initPlayerPool) [initGame 0] [initPlayer 0]).1.gunFlag
      = true ∧
    (roundReset (fireStartingGun initPlayerPool) [initGame 0] [initPlayer 0]).1.totalPlayerCount
      = 0 ∧
    (roundReset (fireStartingGun initPlayerPool) [initGame 0] [initPlayer 0]).2.2
      = [initPlayer 0] := by
  refine ⟨fun _ _ _ => rfl, rfl, rfl, ?_⟩
  simp [roundReset, resetPlayer, initPlayer]

/-- C10: with a valid player count, a game count of 0 passes validation and a
game count is rejected exactly when negative; a round with an empty pool makes
every worker's scan visit no slots and leave the worker unchanged, so an
initialised player's four counters are all still 0 at round end. -/
theorem C10_zero_games (p : Int) (hp : 2 ≤ p) :
    validateConfig p 0 = true ∧
    (∀ g : Int, validateConfig p g = true ↔ 0 ≤ g) ∧
    (∀ (joinGame : Player → Game → Player × Game) (pl : Player),
      TryToPlayEachGame joinGame pl [] = (pl, [])) ∧
    (∀ (joinGame : Player → Game → Player × Game) (i : Int),
      (TryToPlayEachGame joinGame (initPlayer i) []).1.gamesPlayed = 0 ∧
      (TryToPlayEachGame joinGame (initPlayer i) []).1.winCount = 0 ∧
      (TryToPlayEachGame joinGame (initPlayer i) []).1.loseCount = 0 ∧
      (TryToPlayEachGame joinGame (initPlayer i) []).1.drawCount = 0) := by
  refine ⟨?_, ?_, fun _ _ => rfl, fun _ _ => ⟨rfl, rfl, rfl, rfl⟩⟩
  · simp [validateConfig]
    omega
  · intro g
    by_cases hg : 0 ≤ g
    · simp [validateConfig, hg]
      omega
    · simp only [validateConfig]
      rw [if_neg (by omega)]
      rw [if_pos (by omega)]
      simp
      omega

/-- Helper: the `GameState` component of `MakeAMove` is `Draw` exactly when no
cell was open, and otherwise it is `Won` or `StillPlaying`. -/
theorem makeAMove_state (rand : Nat) (p : Player) (g : Game) :
    ((MakeAMove rand p g).1 = GameState.Draw ↔ openCells g.gameBoard = []) ∧
    (openCells g.gameBoard ≠ [] →
      (MakeAMove rand p g).1 = GameState.Won ∨
      (MakeAMove rand p g).1 = GameState.StillPlaying) := by
  simp only [MakeAMove]
  split
  · rename_i h
    have hne : openCells g.gameBoard ≠ [] := by
      intro hnil
      rw [hnil] at h
      exact h rfl
    split
    · exact ⟨by simp [hne], fun _ => Or.inl rfl⟩
    · exact ⟨by simp [hne], fun _ => Or.inr rfl⟩
  · rename_i h
    rw [not_not] at h
    have hnil : openCells g.gameBoard = [] := List.length_eq_zero.mp h
    exact ⟨by simp [hnil], fun hne => absurd hnil hne⟩

/-- Helper: `MakeAMove` leaves every non-board, non-counter field of the game
unchanged; in particular `currentTurn` and `currentGameState`. -/
theorem makeAMove_preserves (rand : Nat) (p : Player) (g : Game) :
    (MakeAMove rand p g).2.2.currentTurn = g.currentTurn ∧
    (MakeAMove rand p g).2.2.currentGameState = g.currentGameState ∧
    (MakeAMove rand p g).2.2.playerX = g.playerX ∧
    (MakeAMove rand p g).2.2.playerO = g.playerO := by
  simp only [MakeAMove]
  split
  · split <;> exact ⟨rfl, rfl, rfl, rfl⟩
  · exact ⟨rfl, rfl, rfl, rfl⟩

/-- Helper: a successful (non-fatal) `PlayGame` loop iteration implies the
mover held the turn, and it hands `currentTurn` to the other role. -/
theorem playTurnStep_spec (rand : Nat) (p : Player) (g : Game)
    (out : GameState × Player × Game) (h : playTurnStep rand p g = some out) :
    g.currentTurn = p.type ∧
    out.2.2.currentTurn = otherRole p.type ∧
    out.2.2.currentGameState = out.1 := by
  simp only [playTurnStep] at h
  split at h
  · exact absurd h (by simp)
  · rename_i hcond
    rw [not_not] at hcond
    obtain rfl : out = _ := (Option.some.inj h).symm
    exact ⟨hcond,
      (makeAMove_preserves rand p { g with currentTurn := otherRole p.type }).1,
      rfl⟩

/-- C6: a move returns `Draw` exactly when the board has no empty cell at call
time, otherwise the result is `Won` or `StillPlaying`; consequently a loop
iteration on a full board stores `Draw` in the slot, so a filled board is
never left in progress. -/
theorem C6_draw_iff_board_full (rand : Nat) (p : Player) (g : Game) :
    ((MakeAMove rand p g).1 = GameState.Draw ↔
      ∀ r c : Fin 3, g.gameBoard r c ≠ PlayerType.None) ∧
    ((∃ r c : Fin 3, g.gameBoard r c = PlayerType.None) →
      (MakeAMove rand p g).1 = GameState.Won ∨
      (MakeAMove rand p g).1 = GameState.StillPlaying) ∧
    (∀ out, (∀ r c : Fin 3, g.gameBoard r c ≠ PlayerType.None) →
      playTurnStep rand p g = some out →
      out.2.2.currentGameState = GameState.Draw) := by
  refine ⟨?_, ?_, ?_⟩
  · rw [(makeAMove_state rand p g).1, openCells_eq_nil_iff]
  · rintro ⟨r, c, hrc⟩
    refine (makeAMove_state rand p g).2 ?_
    rw [Ne, openCells_eq_nil_iff]
    push_neg
    exact ⟨r, c, hrc⟩
  · intro out hfull hstep
    obtain ⟨hturn, hnext, hstate⟩ := playTurnStep_spec rand p g out hstep
    rw [hstate]
    simp only [playTurnStep, if_neg (not_not.mpr hturn)] at hstep
    obtain rfl : out = _ := (Option.some.inj hstep).symm
    show (MakeAMove rand p { g with currentTurn := otherRole p.type }).1 = GameState.Draw
    refine (makeAMove_state rand p _).1.mpr ?_
    show openCells g.gameBoard = []
    exact (openCells_eq_nil_iff _).mpr hfull

/-- Witness for C6 on a full board with no three-in-a-row. -/
theorem C6_draw_iff_board_full_witness :
    (MakeAMove 0 samplePlayerX { initGame 0 with gameBoard := drawnBoard }).1
      = GameState.Draw :=
  (C6_draw_iff_board_full 0 samplePlayerX
    { initGame 0 with gameBoard := drawnBoard }).1.mpr (by decide)

/-- Helper: when a cell is open, `MakeAMove` writes the mover's mark to the
open cell it picked, and nothing else. -/
theorem makeAMove_board (rand : Nat) (p : Player) (g : Game)
    (hne : openCells g.gameBoard ≠ []) :
    ∃ m ∈ openCells g.gameBoard,
      (MakeAMove rand p g).2.2.gameBoard =
        placeMark g.gameBoard (cellRow m) (cellCol m) p.type := by
  have hlen : (openCells g.gameBoard).length ≠ 0 :=
    fun h => hne (List.length_eq_zero.mp h)
  simp only [MakeAMove]
  rw [dif_pos hlen]
  refine ⟨(openCells g.gameBoard).get
    ⟨rand % (openCells g.gameBoard).length, Nat.mod_lt _ (Nat.pos_of_ne_zero hlen)⟩,
    List.get_mem _ _ _, ?_⟩
  split <;> rfl

/-- C9: a move writes at most one cell: on a full board the board is returned
untouched, and otherwise exactly one cell changes, that cell is within the 3x3
board (its indices are `Fin 3` values), it is empty immediately before the
write, and it receives the mover's mark — so a write to an occupied cell never
happens. -/
theorem C9_single_safe_write (rand : Nat) (p : Player) (g : Game) :
    (openCells g.gameBoard = [] →
      (MakeAMove rand p g).2.2.gameBoard = g.gameBoard) ∧
    (openCells g.gameBoard ≠ [] →
      ∃ row col : Fin 3,
        g.gameBoard row col = PlayerType.None ∧
        (MakeAMove rand p g).2.2.gameBoard row col = p.type ∧
        ∀ r c : Fin 3, ¬(r = row ∧ c = col) →
          (MakeAMove rand p g).2.2.gameBoard r c = g.gameBoard r c) := by
  constructor
  · intro hnil
    simp only [MakeAMove]
    rw [dif_neg (by rw [hnil]; simp)]
  · intro hne
    obtain ⟨m, hm, hboard⟩ := makeAMove_board rand p g hne
    refine ⟨cellRow m, cellCol m, (mem_openCells g.gameBoard m).mp hm, ?_, ?_⟩
    · rw [hboard]
      simp [placeMark]
    · intro r c hrc
      rw [hboard]
      simp only [placeMark, if_neg hrc]

/-- Witness for C9: the first move on a fresh board. -/
theorem C9_single_safe_write_witness :
    ∃ row col : Fin 3,
      (initGame 0).gameBoard row col = PlayerType.None ∧
      (MakeAMove 0 samplePlayerX (initGame 0)).2.2.gameBoard row col
        = samplePlayerX.type ∧
      ∀ r c : Fin 3, ¬(r = row ∧ c = col) →
        (MakeAMove 0 samplePlayerX (initGame 0)).2.2.gameBoard r c
          = (initGame 0).gameBoard r c :=
  (C9_single_safe_write 0 samplePlayerX (initGame 0)).2 (by decide)

/-- C4: a loop iteration of `PlayGame` equals flipping `currentTurn` to the
other role first and only then running `MakeAMove` (on the already-flipped
game) and storing its outcome; hence after an iteration that ends the game as
`Won` or `Draw`, `currentTurn` still names the non-moving role. -/
theorem C4_turn_flips_before_outcome (rand : Nat) (p : Player) (g : Game)
    (hrole : p.type = PlayerType.X ∨ p.type = PlayerType.O)
    (hturn : g.currentTurn = p.type) :
    playTurnStep rand p g =
      some ((MakeAMove rand p { g with currentTurn := otherRole p.type }).1,
            (MakeAMove rand p { g with currentTurn := otherRole p.type }).2.1,
            { (MakeAMove rand p { g with currentTurn := otherRole p.type }).2.2 with
                currentGameState :=
                  (MakeAMove rand p { g with currentTurn := otherRole p.type }).1 }) ∧
    (∀ out, playTurnStep rand p g = some out →
      out.2.2.currentTurn = otherRole p.type ∧
      ((out.1 = GameState.Won ∨ out.1 = GameState.Draw) →
        out.2.2.currentTurn ≠ p.type)) := by
  constructor
  · simp only [playTurnStep, if_neg (not_not.mpr hturn)]
  · intro out hstep
    obtain ⟨-, hnext, -⟩ := playTurnStep_spec rand p g out hstep
    refine ⟨hnext, fun _ => ?_⟩
    rw [hnext]
    rcases hrole with h | h <;> rw [h] <;> simp [otherRole]

/-- Witness for C4 on the first move of a fresh game. -/
theorem C4_turn_flips_before_outcome_witness :
    (playTurnStep 0 samplePlayerX (initGame 0)).isSome = true ∧
    (∀ out, playTurnStep 0 samplePlayerX (initGame 0) = some out →
      out.2.2.currentTurn = otherRole samplePlayerX.type) := by
  have h := C4_turn_flips_before_outcome 0 samplePlayerX (initGame 0)
    (Or.inl rfl) rfl
  exact ⟨by rw [h.1]; rfl, fun out hout => (h.2 out hout).1⟩

/-- C7: on the mover's path, a winning move increments exactly the mover's
`winCount`, a draw-discovering move increments exactly the mover's
`drawCount`, and a `StillPlaying` move changes nothing; on the non-mover's
wake-up path, a `Won` slot increments exactly the worker's `loseCount` and a
`Draw` slot exactly its `drawCount` — never its `winCount`. -/
theorem C7_statistics (rand : Nat) (p q : Player) (g : Game) :
    (∀ st p' g', MakeAMove rand p g = (st, p', g') →
      (st = GameState.Won →
        p'.winCount = p.winCount + 1 ∧ p'.loseCount = p.loseCount ∧
        p'.drawCount = p.drawCount ∧ p'.gamesPlayed = p.gamesPlayed) ∧
      (st = GameState.Draw →
        p'.drawCount = p.drawCount + 1 ∧ p'.winCount = p.winCount ∧
        p'.loseCount = p.loseCount ∧ p'.gamesPlayed = p.gamesPlayed) ∧
      (st = GameState.StillPlaying → p' = p)) ∧
    (g.currentGameState = GameState.Won →
      (playGameFinish q g).loseCount = q.loseCount + 1 ∧
      (playGameFinish q g).winCount = q.winCount ∧
      (playGameFinish q g).drawCount = q.drawCount) ∧
    (g.currentGameState = GameState.Draw →
      (playGameFinish q g).drawCount = q.drawCount + 1 ∧
      (playGameFinish q g).winCount = q.winCount ∧
      (playGameFinish q g).loseCount = q.loseCount) := by
  refine ⟨?_, ?_, ?_⟩
  · intro st p' g' h
    simp only [MakeAMove] at h
    split at h
    · split at h
      · rw [Prod.mk.injEq, Prod.mk.injEq] at h
        obtain ⟨rfl, rfl, rfl⟩ := h
        exact ⟨fun _ => ⟨rfl, rfl, rfl, rfl⟩,
          fun hst => GameState.noConfusion hst,
          fun hst => GameState.noConfusion hst⟩
      · rw [Prod.mk.injEq, Prod.mk.injEq] at h
        obtain ⟨rfl, rfl, rfl⟩ := h
        exact ⟨fun hst => GameState.noConfusion hst,
          fun hst => GameState.noConfusion hst, fun _ => rfl⟩
    · rw [Prod.mk.injEq, Prod.mk.injEq] at h
      obtain ⟨rfl, rfl, rfl⟩ := h
      exact ⟨fun hst => GameState.noConfusion hst,
        fun _ => ⟨rfl, rfl, rfl, rfl⟩,
        fun hst => GameState.noConfusion hst⟩
  · intro h
    simp [playGameFinish, h]
  · intro h
    simp [playGameFinish, h]

/-- Witness for C7: the winning move on `nearWinBoard` and the loser's
wake-up bookkeeping. -/
theorem C7_statistics_witness :
    (MakeAMove 0 samplePlayerX { initGame 0 with gameBoard := nearWinBoard }).2.1.winCount
      = samplePlayerX.winCount + 1 ∧
    (playGameFinish samplePlayerO
      { initGame 0 with currentGameState := GameState.Won }).loseCount
      = samplePlayerO.loseCount + 1 := by
  constructor
  · exact (((C7_statistics 0 samplePlayerX samplePlayerO
      { initGame 0 with gameBoard := nearWinBoard }).1 _ _ _ rfl).1 (by decide)).1
  · exact ((C7_statistics 0 samplePlayerX samplePlayerO
      { initGame 0 with currentGameState := GameState.Won }).2.1 rfl).1

/-- Helper: every `switch` branch of `PlayGame` broadcasts first. -/
theorem turnActions_head (st : GameState) :
    (turnActions st).head? = some TurnAction.notifyAll := by
  cases st <;> rfl

/-- C1: on a fresh slot the first joiner is seated as O and must wait — its
wake predicate `playerX != -1` is still false at that point, and the wait
releases the slot's lock (condition-variable wait semantics) — while the
second joiner is seated as X with no wait; the second joiner validly enters
play (both seats filled, it holds the first turn) and its first loop
iteration broadcasts on the slot's condition before any wait or return,
whatever the move's outcome, waking the O-seated waiter whose predicate now
holds. -/
theorem C1_join_rendezvous (rand : Nat) (p1 p2 : Player) (g : Game)
    (hO : g.playerO = -1) (hX : g.playerX = -1)
    (hturn : g.currentTurn = PlayerType.X)
    (hid1 : p1.id ≠ -1) (hid2 : p2.id ≠ -1) :
    (JoinGameAssign p1 g).1.type = PlayerType.O ∧
    (JoinGameAssign p1 g).2.2 = true ∧
    joinWaitPredicate (JoinGameAssign p1 g).2.1 = false ∧
    (JoinGameAssign p2 (JoinGameAssign p1 g).2.1).1.type = PlayerType.X ∧
    (JoinGameAssign p2 (JoinGameAssign p1 g).2.1).2.2 = false ∧
    joinWaitPredicate (JoinGameAssign p2 (JoinGameAssign p1 g).2.1).2.1 = true ∧
    canPlay (JoinGameAssign p2 (JoinGameAssign p1 g).2.1).2.1 = true ∧
    ((playTurnStep rand (JoinGameAssign p2 (JoinGameAssign p1 g).2.1).1
        (JoinGameAssign p2 (JoinGameAssign p1 g).2.1).2.1).isSome = true ∧
     ∀ out, playTurnStep rand (JoinGameAssign p2 (JoinGameAssign p1 g).2.1).1
        (JoinGameAssign p2 (JoinGameAssign p1 g).2.1).2.1 = some out →
       (turnActions out.1).head? = some TurnAction.notifyAll) := by
  have h1 : JoinGameAssign p1 g =
      ({ p1 with type := PlayerType.O }, { g with playerO := p1.id }, true) := by
    simp [JoinGameAssign, hO]
  have h2 : JoinGameAssign p2 { g with playerO := p1.id } =
      ({ p2 with type := PlayerType.X },
       { g with playerO := p1.id, playerX := p2.id }, false) := by
    simp [JoinGameAssign, hid1]
  refine ⟨?_, ?_, ?_, ?_, ?_, ?_, ?_, ?_⟩
  · rw [h1]
  · rw [h1]
  · rw [h1]
    simp [joinWaitPredicate, hX]
  · simp only [h1]
    rw [h2]
  · simp only [h1]
    rw [h2]
  · simp only [h1]
    rw [h2]
    simp [joinWaitPredicate, hid2]
  · simp only [h1]
    rw [h2]
    simp [canPlay, hid1, hid2]
  · simp only [h1]
    rw [h2]
    refine ⟨?_, fun out hout => turnActions_head _⟩
    simp only [playTurnStep]
    rw [if_neg (by simp [hturn])]
    rfl

/-- Witness for C1: players 0 and 1 pairing up on a fresh slot. -/
theorem C1_join_rendezvous_witness :
    (JoinGameAssign (initPlayer 0) (initGame 0)).1.type = PlayerType.O ∧
    (JoinGameAssign (initPlayer 1)
      (JoinGameAssign (initPlayer 0) (initGame 0)).2.1).1.type = PlayerType.X := by
  have h := C1_join_rendezvous 0 (initPlayer 0) (initPlayer 1) (initGame 0)
    rfl rfl rfl (by decide) (by decide)
  exact ⟨h.1, h.2.2.2.1⟩

/-- Helper: every `otherRole` value is a real seat, never `None`. -/
theorem otherRole_ne_none (t : PlayerType) :
    otherRole t ≠ PlayerType.None := by
  unfold otherRole
  split <;> simp

/-- Helper: flipping a real seat twice is the identity. -/
theorem otherRole_otherRole (t : PlayerType) (ht : t ≠ PlayerType.None) :
    otherRole (otherRole t) = t := by
  cases t
  · exact absurd rfl ht
  · decide
  · decide

/-- Helper: along any trace of successful loop iterations from a slot whose
turn owner is a real seat, the movers' marks alternate starting with the
slot's turn owner. -/
theorem plays_roles_alternate (g : Game) (roles : List PlayerType) (gf : Game)
    (h : Plays g roles gf) :
    g.currentTurn ≠ PlayerType.None →
    ∀ i (hi : i < roles.length),
      roles.get ⟨i, hi⟩ =
        if i % 2 = 0 then g.currentTurn else otherRole g.currentTurn := by
  induction h with
  | nil g =>
    intro _ i hi
    simp at hi
  | cons rand p g gfinal roles out hstill hstep hrec ih =>
    intro ht i hi
    obtain ⟨hturn, hnext, -⟩ := playTurnStep_spec rand p g out hstep
    have ih' := ih (by rw [hnext]; exact otherRole_ne_none _)
    match i with
    | 0 => simpa using hturn.symm
    | Nat.succ j =>
      have hj : j < roles.length := by simpa using hi
      have hih := ih' j hj
      rw [hnext] at hih
      have hp : p.type ≠ PlayerType.None := hturn ▸ ht
      show roles.get ⟨j, hj⟩ = _
      rw [hturn]
      by_cases hj2 : j % 2 = 0
      · rw [if_pos hj2] at hih
        rw [if_neg (by omega), hih]
      · rw [if_neg hj2, otherRole_otherRole p.type hp] at hih
        rw [if_pos (by omega), hih]

/-- C5: on a slot as `main` initialises it (turn owner X), the marks placed
along any trace of successful loop iterations strictly alternate, with the
first mark X: each iteration requires the mover to hold the turn and flips
the owner to the other role. -/
theorem C5_alternation (k : Int) (roles : List PlayerType) (gf : Game)
    (h : Plays (initGame k) roles gf) :
    (initGame k).currentTurn = PlayerType.X ∧
    ∀ i (hi : i < roles.length),
      roles.get ⟨i, hi⟩ =
        if i % 2 = 0 then PlayerType.X else PlayerType.O := by
  refine ⟨rfl, ?_⟩
  intro i hi
  have halt := plays_roles_alternate (initGame k) roles gf h (by simp [initGame]) i hi
  rw [halt]
  show (if i % 2 = 0 then PlayerType.X else otherRole PlayerType.X) = _
  simp [otherRole]

/-- Witness for C5: a one-move trace on a fresh slot. -/
theorem C5_alternation_witness :
    (initGame 0).currentTurn = PlayerType.X ∧
    ∀ i (hi : i < [PlayerType.X].length),
      [PlayerType.X].get ⟨i, hi⟩ =
        if i % 2 = 0 then PlayerType.X else PlayerType.O :=
  C5_alternation 0 [PlayerType.X] _
    (Plays.cons 0 samplePlayerX (initGame 0) _ [] _ rfl rfl (Plays.nil _))

/-- Witness for C10 at 2 players, 0 games. -/
theorem C10_zero_games_witness :
    validateConfig 2 0 = true ∧
    TryToPlayEachGame (fun pl g => (pl, g)) (initPlayer 0) [] = (initPlayer 0, []) :=
  ⟨(C10_zero_games 2 (by decide)).1,
   (C10_zero_games 2 (by decide)).2.2.1 _ _⟩

end TicTacToeRandomizer
